import Mathlib

/-
Shallow embedding of the BlockLink reward protocol
(src/BlockLink_SmartContract.sol): the `BlockLinkRewardProtocol` contract
together with the part of the `BlockLinkToken` ERC-20 ledger it uses.

Addresses are natural numbers with 0 as the null address.  Solidity 0.8
arithmetic is checked (it reverts instead of wrapping), and every quantity
here only ever grows by small increments from 0, so `Nat` is a faithful
model of `uint256`.  A reverting call is an `Except.error`: following EVM
transaction semantics, an error carries no state, which models the
all-or-nothing rollback of a failed call.

The second half of the file proves the behavioural properties of the
contract: per-operation characterisations, frame lemmas, and the
reachable-state invariants they rest on.  Concrete states named `sW...`,
`sC...` and operation lists named `opsW...` are fixed scenarios used to
evaluate the definitions on closed inputs.
-/

namespace BlockLink


/-- Addresses are modelled as natural numbers; 0 is the null address. -/
abbrev Addr := Nat

/-- enum Role { NONE, MATCHMAKER, VERIFIER, ADMIN } -/
inductive Role
  | NONE
  | MATCHMAKER
  | VERIFIER
  | ADMIN
deriving DecidableEq

/-- struct User (src/BlockLink_SmartContract.sol lines 41-47). -/
structure User where
  userAddress : Addr
  role : Role
  totalRewardsEarned : Nat
  successfulMatches : Nat
  isActive : Bool
deriving DecidableEq

/-- Zero-valued User record: what `users[a]` yields for a key never written. -/
def defaultUser : User :=
  { userAddress := 0, role := .NONE, totalRewardsEarned := 0,
    successfulMatches := 0, isActive := false }

/-- struct Match (src/BlockLink_SmartContract.sol lines 50-59). -/
structure MatchRec where
  matchId : Nat
  matchmaker : Addr
  peer1 : Addr
  peer2 : Addr
  rewardAmount : Nat
  isVerified : Bool
  createdAt : Nat
  completedAt : Nat
deriving DecidableEq

/-- Zero-valued Match record: what `matches[m]` yields for a key never written. -/
def defaultMatch : MatchRec :=
  { matchId := 0, matchmaker := 0, peer1 := 0, peer2 := 0, rewardAmount := 0,
    isVerified := false, createdAt := 0, completedAt := 0 }

/-- Named revert reasons, following the spec's error vocabulary; each
`require` message of the source is mapped to the corresponding name. -/
inductive Err
  | InvalidRole
  | AlreadyRegistered
  | NotRegistered
  | UnauthorizedRole
  | InvalidAddress
  | UnknownMatch
  | AlreadyVerified
  | InsufficientBalance
  | InvalidAmount
  | NotOwner
deriving DecidableEq

/-- Pointwise update of a mapping, the value store behind Solidity mappings. -/
def upd {α : Type} (f : Nat → α) (k : Nat) (v : α) : Nat → α :=
  fun a => if a = k then v else f a

/-- Combined storage of the deployed protocol contract and its reward token.
`balances` is the BlockLinkToken ledger; `registryAddr` is `address(this)`
of the protocol contract; `owner` is the protocol deployer (Ownable);
`tokenOwner` is the token deployer (Ownable on the token). -/
structure State where
  users : Addr → User
  matchesMap : Nat → MatchRec
  verifiers : Addr → Bool
  matchCounter : Nat
  totalMatches : Nat
  successfulMatches : Nat
  balances : Addr → Nat
  owner : Addr
  tokenOwner : Addr
  registryAddr : Addr

/-- uint256 public constant REWARD_AMOUNT = 100 * 10 ** 18 (line 70). -/
def REWARD_AMOUNT : Nat := 100 * 10 ^ 18

/-- Modelled from the spec: the Reward Ledger's `transfer` operation
(OpenZeppelin ERC20, imported by the source but not part of this
repository): it decreases the caller's balance and increases the
recipient's balance by exactly `amount`; it fails if the recipient is the
null identity or the caller's balance is below `amount`. -/
def tokenTransfer (caller dst : Addr) (amount : Nat) (b : Addr → Nat) :
    Except Err (Addr → Nat) :=
  if dst = 0 then .error .InvalidAddress
  else if b caller < amount then .error .InsufficientBalance
  else
    let b1 := upd b caller (b caller - amount)
    .ok (upd b1 dst (b1 dst + amount))

/-- function registerUser(Role _role) (lines 95-112). -/
def registerUser (sender : Addr) (role : Role) (s : State) : Except Err State :=
  if role = .NONE then .error .InvalidRole
  else if (s.users sender).isActive then .error .AlreadyRegistered
  else
    let newUser : User :=
      { userAddress := sender, role := role, totalRewardsEarned := 0,
        successfulMatches := 0, isActive := true }
    let s1 := { s with users := upd s.users sender newUser }
    if role = .VERIFIER then
      .ok { s1 with verifiers := upd s1.verifiers sender true }
    else .ok s1

/-- function assignRole(address _user, Role _role) onlyOwner (lines 119-130). -/
def assignRole (sender target : Addr) (role : Role) (s : State) :
    Except Err State :=
  if sender ≠ s.owner then .error .NotOwner
  else if ¬ (s.users target).isActive then .error .NotRegistered
  else if role = .NONE then .error .InvalidRole
  else
    let newUser : User := { s.users target with role := role }
    let s1 := { s with users := upd s.users target newUser }
    if role = .VERIFIER then
      .ok { s1 with verifiers := upd s1.verifiers target true }
    else .ok s1

/-- function createMatch(address _peer1, address _peer2) (lines 139-165);
`now` stands for `block.timestamp`.  Returns the new match id. -/
def createMatch (sender p1 p2 : Addr) (now : Nat) (s : State) :
    Except Err (Nat × State) :=
  if ¬ (s.users sender).isActive then .error .NotRegistered
  else if (s.users sender).role ≠ .MATCHMAKER then .error .UnauthorizedRole
  else if p1 = 0 ∨ p2 = 0 then .error .InvalidAddress
  else if p1 = p2 then .error .InvalidAddress
  else
    let matchId := s.matchCounter
    .ok (matchId, { s with
      matchCounter := s.matchCounter + 1,
      totalMatches := s.totalMatches + 1,
      matchesMap := upd s.matchesMap matchId
        { matchId := matchId, matchmaker := sender, peer1 := p1, peer2 := p2,
          rewardAmount := REWARD_AMOUNT, isVerified := false,
          createdAt := now, completedAt := 0 } })

/-- function _distributeReward(uint256 _matchId) internal (lines 194-209).
The token transfer is issued by the registry contract itself. -/
def _distributeReward (matchId : Nat) (s : State) : Except Err State :=
  let matchData := s.matchesMap matchId
  let matchmaker := matchData.matchmaker
  let rewardAmount := matchData.rewardAmount
  if s.balances s.registryAddr < rewardAmount then .error .InsufficientBalance
  else
    let u := s.users matchmaker
    let u1 : User :=
      { u with totalRewardsEarned := u.totalRewardsEarned + rewardAmount,
               successfulMatches := u.successfulMatches + 1 }
    let s1 := { s with users := upd s.users matchmaker u1 }
    match tokenTransfer s.registryAddr matchmaker rewardAmount s1.balances with
    | .error e => .error e
    | .ok b => .ok { s1 with balances := b }

/-- function verifyMatch(uint256 _matchId) (lines 171-188);
`now` stands for `block.timestamp`. -/
def verifyMatch (sender : Addr) (matchId : Nat) (now : Nat) (s : State) :
    Except Err State :=
  if s.verifiers sender = false then .error .UnauthorizedRole
  else if s.matchCounter ≤ matchId then .error .UnknownMatch
  else
    let matchData := s.matchesMap matchId
    if matchData.isVerified then .error .AlreadyVerified
    else if matchData.createdAt = 0 then .error .UnknownMatch
    else
      let s1 := { s with
        matchesMap := upd s.matchesMap matchId
          { matchData with isVerified := true, completedAt := now },
        successfulMatches := s.successfulMatches + 1 }
      _distributeReward matchId s1

/-- function getUserInfo(address _user) view (lines 217-219). -/
def getUserInfo (user : Addr) (s : State) : User := s.users user

/-- function getMatchInfo(uint256 _matchId) view (lines 225-228). -/
def getMatchInfo (matchId : Nat) (s : State) : Except Err MatchRec :=
  if s.matchCounter ≤ matchId then .error .UnknownMatch
  else .ok (s.matchesMap matchId)

/-- function getProtocolStats() view (lines 246-253):
(totalMatchesCreated, successfulMatchesVerified, successRate). -/
def getProtocolStats (s : State) : Nat × Nat × Nat :=
  (s.totalMatches, s.successfulMatches,
    if 0 < s.totalMatches then s.successfulMatches * 100 / s.totalMatches
    else 0)

/-- function fundRewards(uint256 _amount) onlyOwner (lines 261-264); the
`transferFrom` pulling tokens from the owner into the registry is modelled
from the spec as a ledger transfer from the caller to the registry. -/
def fundRewards (sender : Addr) (amount : Nat) (s : State) : Except Err State :=
  if sender ≠ s.owner then .error .NotOwner
  else if amount = 0 then .error .InvalidAmount
  else
    match tokenTransfer sender s.registryAddr amount s.balances with
    | .error e => .error e
    | .ok b => .ok { s with balances := b }

/-- function withdrawTokens(uint256 _amount) onlyOwner (lines 270-274). -/
def withdrawTokens (sender : Addr) (amount : Nat) (s : State) :
    Except Err State :=
  if sender ≠ s.owner then .error .NotOwner
  else if amount = 0 then .error .InvalidAmount
  else if s.balances s.registryAddr < amount then .error .InsufficientBalance
  else
    match tokenTransfer s.registryAddr sender amount s.balances with
    | .error e => .error e
    | .ok b => .ok { s with balances := b }

/-- function mint(address to, uint256 amount) onlyOwner on the token
(lines 17-19); the ERC20 `_mint`, modelled from the spec: increases `to`'s
balance by `amount`. -/
def tokenMint (sender dst : Addr) (amount : Nat) (s : State) :
    Except Err State :=
  if sender ≠ s.tokenOwner then .error .NotOwner
  else .ok { s with balances := upd s.balances dst (s.balances dst + amount) }

/-- function burn(uint256 amount) on the token (lines 21-23); the ERC20
`_burn`, modelled from the spec: decreases the caller's own balance,
failing if it is insufficient. -/
def tokenBurn (sender : Addr) (amount : Nat) (s : State) : Except Err State :=
  if s.balances sender < amount then .error .InsufficientBalance
  else .ok { s with balances := upd s.balances sender (s.balances sender - amount) }

/-- A direct ERC20 `transfer` call on the token by an arbitrary holder. -/
def tokenTransferOp (sender dst : Addr) (amount : Nat) (s : State) :
    Except Err State :=
  match tokenTransfer sender dst amount s.balances with
  | .error e => .error e
  | .ok b => .ok { s with balances := b }

/-- The state-changing operations of the system; the first argument of each
constructor is `msg.sender`. -/
inductive Op
  | register (sender : Addr) (role : Role)
  | assign (sender target : Addr) (role : Role)
  | create (sender p1 p2 now : Nat)
  | verify (sender matchId now : Nat)
  | fund (sender amount : Nat)
  | withdraw (sender amount : Nat)
  | mintTok (sender dst amount : Nat)
  | burnTok (sender amount : Nat)
  | transferTok (sender dst amount : Nat)
deriving DecidableEq

/-- Result of a top-level call: a revert leaves the pre-state untouched. -/
def stepOf (r : Except Err State) (s : State) : State :=
  match r with
  | .ok s1 => s1
  | .error _ => s

/-- Apply one top-level call to the state (reverts roll back). -/
def applyOp (o : Op) (s : State) : State :=
  match o with
  | .register c r => stepOf (registerUser c r s) s
  | .assign c u r => stepOf (assignRole c u r s) s
  | .create c p1 p2 t =>
      match createMatch c p1 p2 t s with
      | .ok (_, s1) => s1
      | .error _ => s
  | .verify c m t => stepOf (verifyMatch c m t s) s
  | .fund c a => stepOf (fundRewards c a s) s
  | .withdraw c a => stepOf (withdrawTokens c a s) s
  | .mintTok c dst a => stepOf (tokenMint c dst a s) s
  | .burnTok c a => stepOf (tokenBurn c a s) s
  | .transferTok c dst a => stepOf (tokenTransferOp c dst a s) s

/-- Apply a sequence of calls in order. -/
def applyOps (ops : List Op) (s : State) : State :=
  match ops with
  | [] => s
  | o :: rest => applyOps rest (applyOp o s)

/-- Deployment state: the token mints `supply * 10^18` to its deployer, the
protocol constructor (lines 84-87) marks its own deployer as a verifier. -/
def initState (deployer tokOwner registry : Addr) (supply : Nat) : State :=
  { users := fun _ => defaultUser,
    matchesMap := fun _ => defaultMatch,
    verifiers := upd (fun _ => false) deployer true,
    matchCounter := 0, totalMatches := 0, successfulMatches := 0,
    balances := upd (fun _ => 0) tokOwner (supply * 10 ^ 18),
    owner := deployer, tokenOwner := tokOwner, registryAddr := registry }

/-- A state reachable from some deployment by some sequence of calls. -/
def Reachable (s : State) : Prop :=
  ∃ deployer tokOwner registry supply ops,
    s = applyOps ops (initState deployer tokOwner registry supply)

def registeredUser (c : Addr) (r : Role) : User :=
  { userAddress := c, role := r, totalRewardsEarned := 0,
    successfulMatches := 0, isActive := true }

def newMatchRec (id c p1 p2 t : Nat) : MatchRec :=
  { matchId := id, matchmaker := c, peer1 := p1, peer2 := p2,
    rewardAmount := REWARD_AMOUNT, isVerified := false,
    createdAt := t, completedAt := 0 }

def createSuccState (c p1 p2 t : Nat) (s : State) : State :=
  { s with
    matchCounter := s.matchCounter + 1,
    totalMatches := s.totalMatches + 1,
    matchesMap := upd s.matchesMap s.matchCounter
      (newMatchRec s.matchCounter c p1 p2 t) }

def verifySuccState (m t : Nat) (s : State) : State :=
  let md := s.matchesMap m
  let mm := md.matchmaker
  let ra := md.rewardAmount
  let u := s.users mm
  let b1 := upd s.balances s.registryAddr (s.balances s.registryAddr - ra)
  { s with
    matchesMap := upd s.matchesMap m
      ({ md with isVerified := true, completedAt := t }),
    successfulMatches := s.successfulMatches + 1,
    users := upd s.users mm
      ({ u with totalRewardsEarned := u.totalRewardsEarned + ra,
                successfulMatches := u.successfulMatches + 1 }),
    balances := upd b1 mm (b1 mm + ra) }

def CountersInv (s : State) : Prop :=
  s.matchCounter = s.totalMatches ∧
  ∀ m, s.matchCounter ≤ m → s.matchesMap m = defaultMatch

def UsersInv (s : State) : Prop :=
  (∀ a, (s.users a).isActive = false → s.users a = defaultUser) ∧
  ∀ m, m < s.matchCounter → (s.users (s.matchesMap m).matchmaker).isActive = true

def sW1 : State :=
  applyOps [.register 4 .MATCHMAKER, .create 4 7 8 9] (initState 1 2 3 0)

def sC2x : State :=
  applyOps [.register 4 .MATCHMAKER, .create 4 7 8 9,
    .mintTok 2 3 (100 * 10 ^ 18), .verify 1 0 11] (initState 1 2 3 0)

def sW3 : State :=
  applyOps [.register 4 .MATCHMAKER, .create 4 7 8 9,
    .mintTok 2 3 (100 * 10 ^ 18)] (initState 1 2 3 0)

def sW3v : State := applyOp (.verify 1 0 11) sW3

def sW4 : State :=
  { initState 1 2 3 0 with totalMatches := 2, successfulMatches := 1 }

def sW5 : State := applyOps [.register 4 .MATCHMAKER] (initState 1 2 3 0)

def sW5c : State := applyOp (.create 4 7 8 9) sW5

def sC6 : State := applyOp (.register 5 .MATCHMAKER) (initState 1 2 3 0)

def sW7 : State :=
  applyOps [.register 4 .MATCHMAKER, .register 6 .VERIFIER] (initState 1 2 3 0)

def opsW8 : List Op := [.register 5 .MATCHMAKER]

def opsW9 : List Op := [.register 5 .MATCHMAKER, .create 5 7 8 9]

def sW10 : State := applyOps [.register 6 .ADMIN] (initState 1 2 3 0)

theorem upd_same {α : Type} (f : Nat → α) (k : Nat) (v : α) : upd f k v k = v := by
  simp [upd]

theorem upd_ne {α : Type} (f : Nat → α) (k : Nat) (v : α) {a : Nat} (h : a ≠ k) :
    upd f k v a = f a := by
  simp [upd, h]

theorem step_counter_mono (o : Op) (s : State) :
    s.matchCounter ≤ (applyOp o s).matchCounter := by
  cases o <;>
    simp only [applyOp, stepOf, registerUser, assignRole, createMatch, verifyMatch,
      _distributeReward, fundRewards, withdrawTokens, tokenMint, tokenBurn,
      tokenTransferOp, tokenTransfer, upd] <;>
    (try split_ifs) <;> simp_all

theorem step_matches_frame (o : Op) (s : State) (m : Nat)
    (hm : m < s.matchCounter) (ho : ∀ c t, o ≠ .verify c m t) :
    (applyOp o s).matchesMap m = s.matchesMap m := by
  have hne : m ≠ s.matchCounter := Nat.ne_of_lt hm
  cases o
  case verify c mv t =>
    have hmm : m ≠ mv := by
      intro hEq
      exact ho c t (by rw [hEq])
    simp only [applyOp, stepOf, verifyMatch, _distributeReward, tokenTransfer] <;>
      (try split_ifs) <;> simp_all [upd]
  all_goals
    simp only [applyOp, stepOf, registerUser, assignRole, createMatch,
      fundRewards, withdrawTokens, tokenMint, tokenBurn,
      tokenTransferOp, tokenTransfer] <;>
    (try split_ifs) <;> simp_all [upd]

theorem step_active_mono (o : Op) (s : State) (a : Addr)
    (h : (s.users a).isActive = true) : ((applyOp o s).users a).isActive = true := by
  cases o <;>
    simp only [applyOp, stepOf, registerUser, assignRole, createMatch, verifyMatch,
      _distributeReward, fundRewards, withdrawTokens, tokenMint, tokenBurn,
      tokenTransferOp, tokenTransfer, upd] <;>
    (try split_ifs) <;> simp_all [upd, apply_ite] <;>
    (rw [or_iff_not_imp_left]; intro hx; rw [not_not] at hx; subst hx; simp_all)

theorem reach_ind (P : State → Prop) (hstep : ∀ o s, P s → P (applyOp o s)) :
    ∀ ops s, P s → P (applyOps ops s) := by
  intro ops
  induction ops with
  | nil => intro s h; exact h
  | cons o rest ih =>
      intro s h
      exact ih (applyOp o s) (hstep o s h)

theorem countersInv_init (d t r sup : Nat) : CountersInv (initState d t r sup) := by
  constructor
  · rfl
  · intro m _
    rfl

theorem countersInv_step (o : Op) (s : State) (h : CountersInv s) :
    CountersInv (applyOp o s) := by
  obtain ⟨h1, h2⟩ := h
  cases o
  case create c p1 p2 t =>
    constructor <;>
      simp only [applyOp, stepOf, createMatch] <;> (try split_ifs) <;> simp_all
    intro m hm
    rw [upd_ne _ _ _ (by omega)]
    exact h2 m (by omega)
  case verify c mv t =>
    constructor <;>
      simp only [applyOp, stepOf, verifyMatch, _distributeReward, tokenTransfer] <;>
      (try split_ifs) <;> simp_all
    intro m hm
    rw [upd_ne _ _ _ (by omega)]
    exact h2 m (by omega)
  all_goals
    constructor <;>
      simp only [applyOp, stepOf, registerUser, assignRole, fundRewards,
        withdrawTokens, tokenMint, tokenBurn, tokenTransferOp, tokenTransfer] <;>
      (try split_ifs) <;> simp_all

theorem usersInv_init (d t r sup : Nat) : UsersInv (initState d t r sup) := by
  constructor
  · intro a _
    rfl
  · intro m hm
    exact absurd hm (Nat.not_lt_zero m)

theorem registerUser_shape (c : Addr) (r : Role) (s : State) :
    (∃ e, registerUser c r s = .error e) ∨
    ((s.users c).isActive = false ∧ r ≠ .NONE ∧
     registerUser c r s = .ok { s with
       users := upd s.users c (registeredUser c r),
       verifiers := if r = .VERIFIER then upd s.verifiers c true
                    else s.verifiers }) := by
  simp only [registerUser]
  split_ifs with hr ha hv <;>
    first
      | exact Or.inl ⟨_, rfl⟩
      | (right; refine ⟨by simp_all, hr, ?_⟩ <;> simp_all [registeredUser])

theorem assignRole_shape (c u : Addr) (r : Role) (s : State) :
    (∃ e, assignRole c u r s = .error e) ∨
    ((s.users u).isActive = true ∧ r ≠ .NONE ∧
     assignRole c u r s = .ok { s with
       users := upd s.users u ({ s.users u with role := r }),
       verifiers := if r = .VERIFIER then upd s.verifiers u true
                    else s.verifiers }) := by
  simp only [assignRole]
  split_ifs with ho ha hr hv <;>
    first
      | exact Or.inl ⟨_, rfl⟩
      | (right; refine ⟨by simp_all, hr, ?_⟩ <;> simp_all)

theorem createMatch_shape (c p1 p2 t : Nat) (s : State) :
    (∃ e, createMatch c p1 p2 t s = .error e) ∨
    ((s.users c).isActive = true ∧ (s.users c).role = .MATCHMAKER ∧
     p1 ≠ 0 ∧ p2 ≠ 0 ∧ p1 ≠ p2 ∧
     createMatch c p1 p2 t s = .ok (s.matchCounter, createSuccState c p1 p2 t s)) := by
  simp only [createMatch]
  split_ifs with ha hr hp hq <;>
    first
      | exact Or.inl ⟨_, rfl⟩
      | (right
         refine ⟨by simp_all, by simp_all, ?_, ?_, hq, ?_⟩ <;>
           simp_all [createSuccState, newMatchRec, not_or] )

theorem verifyMatch_shape (c m t : Nat) (s : State) :
    (∃ e, verifyMatch c m t s = .error e) ∨
    (s.verifiers c = true ∧ m < s.matchCounter ∧
     (s.matchesMap m).isVerified = false ∧ (s.matchesMap m).createdAt ≠ 0 ∧
     (s.matchesMap m).rewardAmount ≤ s.balances s.registryAddr ∧
     (s.matchesMap m).matchmaker ≠ 0 ∧
     verifyMatch c m t s = .ok (verifySuccState m t s)) := by
  simp only [verifyMatch, _distributeReward, tokenTransfer]
  split_ifs with hv hm hver hcr hb hz <;>
    first
      | exact Or.inl ⟨_, rfl⟩
      | (right
         refine ⟨by simp_all, by omega, by simp_all, hcr, ?_, ?_, ?_⟩ <;>
           simp_all [verifySuccState, upd_same])

theorem fund_balancesOnly (c a : Nat) (s : State) :
    ∃ b, applyOp (.fund c a) s = { s with balances := b } := by
  simp only [applyOp, stepOf, fundRewards, tokenTransfer]
  split_ifs <;> exact ⟨_, rfl⟩

theorem withdraw_balancesOnly (c a : Nat) (s : State) :
    ∃ b, applyOp (.withdraw c a) s = { s with balances := b } := by
  simp only [applyOp, stepOf, withdrawTokens, tokenTransfer]
  split_ifs <;> exact ⟨_, rfl⟩

theorem mint_balancesOnly (c d a : Nat) (s : State) :
    ∃ b, applyOp (.mintTok c d a) s = { s with balances := b } := by
  simp only [applyOp, stepOf, tokenMint]
  split_ifs <;> exact ⟨_, rfl⟩

theorem burn_balancesOnly (c a : Nat) (s : State) :
    ∃ b, applyOp (.burnTok c a) s = { s with balances := b } := by
  simp only [applyOp, stepOf, tokenBurn]
  split_ifs <;> exact ⟨_, rfl⟩

theorem transfer_balancesOnly (c d a : Nat) (s : State) :
    ∃ b, applyOp (.transferTok c d a) s = { s with balances := b } := by
  simp only [applyOp, stepOf, tokenTransferOp, tokenTransfer]
  split_ifs <;> exact ⟨_, rfl⟩

theorem applyOp_register_shape (c : Addr) (r : Role) (s : State) :
    applyOp (.register c r) s = s ∨
    ((s.users c).isActive = false ∧ r ≠ .NONE ∧
     applyOp (.register c r) s = { s with
       users := upd s.users c (registeredUser c r),
       verifiers := if r = .VERIFIER then upd s.verifiers c true
                    else s.verifiers }) := by
  rcases registerUser_shape c r s with ⟨e, he⟩ | ⟨h1, h2, h3⟩
  · exact Or.inl (by simp [applyOp, stepOf, he])
  · exact Or.inr ⟨h1, h2, by simp [applyOp, stepOf, h3]⟩

theorem applyOp_assign_shape (c u : Addr) (r : Role) (s : State) :
    applyOp (.assign c u r) s = s ∨
    ((s.users u).isActive = true ∧ r ≠ .NONE ∧
     applyOp (.assign c u r) s = { s with
       users := upd s.users u ({ s.users u with role := r }),
       verifiers := if r = .VERIFIER then upd s.verifiers u true
                    else s.verifiers }) := by
  rcases assignRole_shape c u r s with ⟨e, he⟩ | ⟨h1, h2, h3⟩
  · exact Or.inl (by simp [applyOp, stepOf, he])
  · exact Or.inr ⟨h1, h2, by simp [applyOp, stepOf, h3]⟩

theorem applyOp_create_shape (c p1 p2 t : Nat) (s : State) :
    applyOp (.create c p1 p2 t) s = s ∨
    ((s.users c).isActive = true ∧ (s.users c).role = .MATCHMAKER ∧
     applyOp (.create c p1 p2 t) s = createSuccState c p1 p2 t s) := by
  rcases createMatch_shape c p1 p2 t s with ⟨e, he⟩ | ⟨h1, h2, _, _, _, h3⟩
  · exact Or.inl (by simp [applyOp, he])
  · exact Or.inr ⟨h1, h2, by simp [applyOp, h3]⟩

theorem applyOp_verify_shape (c m t : Nat) (s : State) :
    applyOp (.verify c m t) s = s ∨
    (m < s.matchCounter ∧ (s.matchesMap m).isVerified = false ∧
     applyOp (.verify c m t) s = verifySuccState m t s) := by
  rcases verifyMatch_shape c m t s with ⟨e, he⟩ | ⟨_, h2, h3, _, _, _, h7⟩
  · exact Or.inl (by simp [applyOp, stepOf, he])
  · exact Or.inr ⟨h2, h3, by simp [applyOp, stepOf, h7]⟩

theorem usersInv_step (o : Op) (s : State) (h : UsersInv s) :
    UsersInv (applyOp o s) := by
  obtain ⟨h1, h2⟩ := h
  cases o
  case register c r =>
    rcases applyOp_register_shape c r s with hs | ⟨ha, _, hs⟩
    · rw [hs]; exact ⟨h1, h2⟩
    · rw [hs]
      constructor
      · intro a hact
        rcases Decidable.em (a = c) with hac | hac
        · simp_all [upd, registeredUser]
        · simp_all [upd]
          exact h1 a hact
      · intro m hm
        rcases Decidable.em ((s.matchesMap m).matchmaker = c) with hc | hc <;>
          simp_all [upd, registeredUser]
  case assign c u r =>
    rcases applyOp_assign_shape c u r s with hs | ⟨ha, _, hs⟩
    · rw [hs]; exact ⟨h1, h2⟩
    · rw [hs]
      constructor
      · intro a hact
        rcases Decidable.em (a = u) with hac | hac
        · simp_all [upd]
        · simp_all [upd]
          exact h1 a hact
      · intro m hm
        rcases Decidable.em ((s.matchesMap m).matchmaker = u) with hc | hc <;>
          simp_all [upd]
  case create c p1 p2 t =>
    rcases applyOp_create_shape c p1 p2 t s with hs | ⟨ha, _, hs⟩
    · rw [hs]; exact ⟨h1, h2⟩
    · rw [hs]
      constructor
      · intro a hact
        exact h1 a hact
      · intro m hm
        simp only [createSuccState] at hm ⊢
        rcases Decidable.em (m = s.matchCounter) with hc | hc
        · simp_all [upd, newMatchRec]
        · rw [upd_ne _ _ _ hc]
          exact h2 m (by omega)
  case verify c mv t =>
    rcases applyOp_verify_shape c mv t s with hs | ⟨hmv, _, hs⟩
    · rw [hs]; exact ⟨h1, h2⟩
    · have hact := h2 mv hmv
      rw [hs]
      constructor
      · intro a ha
        simp only [verifySuccState] at ha ⊢
        rcases Decidable.em (a = (s.matchesMap mv).matchmaker) with hc | hc
        · simp_all [upd]
        · simp_all [upd]
          exact h1 a ha
      · intro m hm
        simp only [verifySuccState] at hm ⊢
        rcases Decidable.em (m = mv) with hc | hc <;>
          rcases Decidable.em ((s.matchesMap m).matchmaker =
            (s.matchesMap mv).matchmaker) with hd | hd <;>
          simp_all [upd] <;>
          exact h2 m hm
  case fund c a =>
    obtain ⟨b, hs⟩ := fund_balancesOnly c a s
    rw [hs]; exact ⟨h1, h2⟩
  case withdraw c a =>
    obtain ⟨b, hs⟩ := withdraw_balancesOnly c a s
    rw [hs]; exact ⟨h1, h2⟩
  case mintTok c d a =>
    obtain ⟨b, hs⟩ := mint_balancesOnly c d a s
    rw [hs]; exact ⟨h1, h2⟩
  case burnTok c a =>
    obtain ⟨b, hs⟩ := burn_balancesOnly c a s
    rw [hs]; exact ⟨h1, h2⟩
  case transferTok c d a =>
    obtain ⟨b, hs⟩ := transfer_balancesOnly c d a s
    rw [hs]; exact ⟨h1, h2⟩

theorem step_counter_frame (o : Op) (s : State)
    (ho : ∀ c p1 p2 t, o ≠ .create c p1 p2 t) :
    (applyOp o s).matchCounter = s.matchCounter := by
  cases o
  case create c p1 p2 t => exact absurd rfl (ho c p1 p2 t)
  case register c r =>
    rcases applyOp_register_shape c r s with hs | ⟨_, _, hs⟩ <;> rw [hs]
  case assign c u r =>
    rcases applyOp_assign_shape c u r s with hs | ⟨_, _, hs⟩ <;> rw [hs]
  case verify c m t =>
    rcases applyOp_verify_shape c m t s with hs | ⟨_, _, hs⟩ <;> rw [hs] <;> rfl
  case fund c a => obtain ⟨b, hs⟩ := fund_balancesOnly c a s; rw [hs]
  case withdraw c a => obtain ⟨b, hs⟩ := withdraw_balancesOnly c a s; rw [hs]
  case mintTok c d a => obtain ⟨b, hs⟩ := mint_balancesOnly c d a s; rw [hs]
  case burnTok c a => obtain ⟨b, hs⟩ := burn_balancesOnly c a s; rw [hs]
  case transferTok c d a => obtain ⟨b, hs⟩ := transfer_balancesOnly c d a s; rw [hs]

/-- C1: for any state and any existing, unverified match id whose reward
exceeds the registry's token balance, verifyMatch fails (for an authorized
caller the named reason is InsufficientBalance, reached after the verified
flag and counter were provisionally set) and the whole call rolls back:
the match record, the successful-matches counter and every user record
(the matchmaker's cumulative rewards and match count included) are exactly
as before the call. -/
theorem verifyMatch_insufficient_balance_rolls_back (s : State) (c m t : Nat)
    (hm : m < s.matchCounter)
    (hunv : (s.matchesMap m).isVerified = false)
    (hex : (s.matchesMap m).createdAt ≠ 0)
    (hb : s.balances s.registryAddr < (s.matchesMap m).rewardAmount) :
    (∃ e, verifyMatch c m t s = .error e) ∧
    (s.verifiers c = true →
      verifyMatch c m t s = .error .InsufficientBalance) ∧
    applyOp (.verify c m t) s = s ∧
    (applyOp (.verify c m t) s).matchesMap m = s.matchesMap m ∧
    (applyOp (.verify c m t) s).successfulMatches = s.successfulMatches ∧
    (applyOp (.verify c m t) s).users = s.users := by
  have herr : ∃ e, verifyMatch c m t s = .error e := by
    rcases verifyMatch_shape c m t s with h | ⟨_, _, _, _, hble, _, _⟩
    · exact h
    · omega
  obtain ⟨e, he⟩ := herr
  have happ : applyOp (.verify c m t) s = s := by
    simp [applyOp, stepOf, he]
  refine ⟨⟨e, he⟩, ?_, happ, by rw [happ], by rw [happ], by rw [happ]⟩
  intro hv
  simp only [verifyMatch, _distributeReward, tokenTransfer]
  split_ifs <;> (try simp_all [upd]) <;> omega

theorem verifyMatch_insufficient_balance_rolls_back_witness :
    0 < sW1.matchCounter ∧ (sW1.matchesMap 0).isVerified = false ∧
    (sW1.matchesMap 0).createdAt ≠ 0 ∧
    sW1.balances sW1.registryAddr < (sW1.matchesMap 0).rewardAmount ∧
    sW1.verifiers 1 = true ∧
    verifyMatch 1 0 11 sW1 = .error .InsufficientBalance ∧
    applyOp (.verify 1 0 11) sW1 = sW1 := by
  have h := verifyMatch_insufficient_balance_rolls_back sW1 1 0 11
    (by decide) (by decide) (by decide) (by decide)
  exact ⟨by decide, by decide, by decide, by decide, by decide,
    h.2.1 (by decide), h.2.2.1⟩

/-- C2 counterexample: match 0 has been verified, yet a subsequent
verifyMatch on the same id by a caller outside the verifier set fails with
UnauthorizedRole, not AlreadyVerified: the authorization check precedes
the already-verified check, refuting the claim that every subsequent
verifyMatch on the id fails with AlreadyVerified. -/
theorem second_verify_by_nonverifier_fails_differently :
    (sC2x.matchesMap 0).isVerified = true ∧
    sC2x.verifiers 9 = false ∧
    verifyMatch 9 0 12 sC2x = .error .UnauthorizedRole ∧
    Err.UnauthorizedRole ≠ Err.AlreadyVerified :=
  ⟨by decide, by decide, rfl, by decide⟩

/-- C2 (amended): for an allocated match id, (1) every operation other
than a verifyMatch on that id preserves the whole match record, so the
verified flag stays false and completedAt stays 0 until a successful
verifyMatch; (2) a successful verifyMatch sets the flag and stamps
completedAt with the call's chain time; (3) once verified, every further
verifyMatch on the id fails and leaves the state unchanged — with
AlreadyVerified for any caller in the verifier set, while a caller outside
the set is rejected earlier with UnauthorizedRole — so no second payment
occurs; (4) once verified, the flag and completedAt are permanent under
every operation and the id stays allocated. -/
theorem match_verified_exactly_once (s : State) (m : Nat)
    (hm : m < s.matchCounter) :
    (∀ o : Op, (∀ c t, o ≠ .verify c m t) →
      (applyOp o s).matchesMap m = s.matchesMap m) ∧
    (∀ c t s', verifyMatch c m t s = .ok s' →
      (s'.matchesMap m).isVerified = true ∧
      (s'.matchesMap m).completedAt = t) ∧
    ((s.matchesMap m).isVerified = true →
      ∀ c t,
        (∃ e, verifyMatch c m t s = .error e) ∧
        (s.verifiers c = true →
          verifyMatch c m t s = .error .AlreadyVerified) ∧
        (s.verifiers c = false →
          verifyMatch c m t s = .error .UnauthorizedRole) ∧
        applyOp (.verify c m t) s = s) ∧
    ((s.matchesMap m).isVerified = true →
      ∀ o : Op,
        ((applyOp o s).matchesMap m).isVerified = true ∧
        ((applyOp o s).matchesMap m).completedAt
          = (s.matchesMap m).completedAt ∧
        m < (applyOp o s).matchCounter) := by
  have key : (s.matchesMap m).isVerified = true →
      ∀ c t, (∃ e, verifyMatch c m t s = .error e) ∧
        applyOp (.verify c m t) s = s := by
    intro hver c t
    have herr : ∃ e, verifyMatch c m t s = .error e := by
      rcases verifyMatch_shape c m t s with h | ⟨_, _, h3, _⟩
      · exact h
      · rw [hver] at h3
        cases h3
    obtain ⟨e, he⟩ := herr
    exact ⟨⟨e, he⟩, by simp [applyOp, stepOf, he]⟩
  refine ⟨fun o ho => step_matches_frame o s m hm ho, ?_, ?_, ?_⟩
  · intro c t s' h
    rcases verifyMatch_shape c m t s with ⟨e, he⟩ | ⟨_, _, _, _, _, _, hok⟩
    · rw [he] at h
      cases h
    · rw [hok] at h
      injection h with h
      subst h
      simp [verifySuccState, upd]
  · intro hver c t
    obtain ⟨herr, happ⟩ := key hver c t
    refine ⟨herr, ?_, ?_, happ⟩
    · intro hv
      simp only [verifyMatch]
      rw [if_neg (by simp [hv]), if_neg (by omega), if_pos hver]
    · intro hv
      simp [verifyMatch, hv]
  · intro hver o
    by_cases ho : ∀ c t, o ≠ .verify c m t
    · have hfr := step_matches_frame o s m hm ho
      have hc := step_counter_mono o s
      exact ⟨by rw [hfr]; exact hver, by rw [hfr], by omega⟩
    · push_neg at ho
      obtain ⟨c, t, rfl⟩ := ho
      rw [(key hver c t).2]
      exact ⟨hver, rfl, hm⟩

theorem match_verified_exactly_once_witness :
    0 < sC2x.matchCounter ∧ (sC2x.matchesMap 0).isVerified = true ∧
    verifyMatch 1 0 12 sC2x = .error .AlreadyVerified ∧
    applyOp (.verify 1 0 12) sC2x = sC2x := by
  have h := match_verified_exactly_once sC2x 0 (by decide)
  have h3 := h.2.2.1 (by decide) 1 12
  exact ⟨by decide, by decide, h3.2.1 (by decide), h3.2.2.2⟩

/-- C3: a successful verifyMatch on a match whose recorded reward is the
fixed constant (as every created match records) and whose matchmaker is
distinct from the registry moves exactly 100 * 10^18 smallest units:
the matchmaker's ledger balance rises by exactly that amount, the
registry's falls by the same amount, their combined holdings (hence total
supply) are conserved, no other account's balance changes, and the
matchmaker's recorded totalRewardsEarned rises by the same amount. -/
theorem verifyMatch_reward_conservation (s s' : State) (c m t : Nat)
    (h : verifyMatch c m t s = .ok s')
    (hra : (s.matchesMap m).rewardAmount = REWARD_AMOUNT)
    (hmm : (s.matchesMap m).matchmaker ≠ s.registryAddr) :
    REWARD_AMOUNT = 100 * 10 ^ 18 ∧
    s'.balances (s.matchesMap m).matchmaker
      = s.balances (s.matchesMap m).matchmaker + REWARD_AMOUNT ∧
    s'.balances s.registryAddr = s.balances s.registryAddr - REWARD_AMOUNT ∧
    REWARD_AMOUNT ≤ s.balances s.registryAddr ∧
    s'.balances (s.matchesMap m).matchmaker + s'.balances s.registryAddr
      = s.balances (s.matchesMap m).matchmaker + s.balances s.registryAddr ∧
    (∀ a, a ≠ (s.matchesMap m).matchmaker → a ≠ s.registryAddr →
      s'.balances a = s.balances a) ∧
    (s'.users (s.matchesMap m).matchmaker).totalRewardsEarned
      = (s.users (s.matchesMap m).matchmaker).totalRewardsEarned
          + REWARD_AMOUNT := by
  rcases verifyMatch_shape c m t s with ⟨e, he⟩ | ⟨_, _, _, _, hble, hz, hok⟩
  · rw [he] at h
    cases h
  · rw [hok] at h
    injection h with h
    subst h
    have hR : REWARD_AMOUNT ≤ s.balances s.registryAddr := hra ▸ hble
    have hmm2 : s.registryAddr ≠ (s.matchesMap m).matchmaker := Ne.symm hmm
    refine ⟨rfl, ?_, ?_, hR, ?_, ?_, ?_⟩
    · simp [verifySuccState, upd, hmm, hmm2, hra]
    · simp [verifySuccState, upd, hmm, hmm2, hra]
    · simp only [verifySuccState]
      simp [upd, hmm, hmm2, hra]
      omega
    · intro a ha1 ha2
      simp [verifySuccState, upd, ha1, ha2]
    · simp [verifySuccState, upd, hra]

theorem verifyMatch_reward_conservation_witness :
    verifyMatch 1 0 11 sW3 = .ok sW3v ∧
    sW3v.balances 4 = sW3.balances 4 + REWARD_AMOUNT ∧
    sW3v.balances 3 = sW3.balances 3 - REWARD_AMOUNT ∧
    (sW3v.users 4).totalRewardsEarned
      = (sW3.users 4).totalRewardsEarned + REWARD_AMOUNT := by
  have h0 : verifyMatch 1 0 11 sW3 = .ok sW3v := rfl
  have h := verifyMatch_reward_conservation sW3 sW3v 1 0 11 h0
    (by decide) (by decide)
  exact ⟨h0, h.2.1, h.2.2.1, h.2.2.2.2.2.2⟩

/-- C4: in every state (hence in every reachable one), `getProtocolStats`
returns the two counters exactly, and a `successRate` equal to
`floor(successfulMatches * 100 / totalMatches)` when `totalMatches > 0`
(characterised by the two floor bounds) and to `0` when `totalMatches = 0`;
being a plain function of the state, it has no side effects. -/
theorem getProtocolStats_correct (s : State) :
    (getProtocolStats s).1 = s.totalMatches ∧
    (getProtocolStats s).2.1 = s.successfulMatches ∧
    (s.totalMatches = 0 → (getProtocolStats s).2.2 = 0) ∧
    (0 < s.totalMatches →
      (getProtocolStats s).2.2 = s.successfulMatches * 100 / s.totalMatches ∧
      (getProtocolStats s).2.2 * s.totalMatches ≤ s.successfulMatches * 100 ∧
      s.successfulMatches * 100 < ((getProtocolStats s).2.2 + 1) * s.totalMatches) := by
  refine ⟨rfl, rfl, fun h => by simp [getProtocolStats, h], fun h => ?_⟩
  have hq := Nat.div_add_mod (s.successfulMatches * 100) s.totalMatches
  have hr := Nat.mod_lt (s.successfulMatches * 100) h
  simp only [getProtocolStats, if_pos h]
  refine ⟨by trivial, Nat.div_mul_le_self _ _, ?_⟩
  calc s.successfulMatches * 100
      = s.totalMatches * (s.successfulMatches * 100 / s.totalMatches) +
          s.successfulMatches * 100 % s.totalMatches := hq.symm
    _ < s.totalMatches * (s.successfulMatches * 100 / s.totalMatches) +
          s.totalMatches := by omega
    _ = (s.successfulMatches * 100 / s.totalMatches + 1) * s.totalMatches := by
          ring

theorem getProtocolStats_correct_witness :
    0 < sW4.totalMatches ∧
    (getProtocolStats sW4).2.2 = sW4.successfulMatches * 100 / sW4.totalMatches := by
  refine ⟨by decide, ?_⟩
  exact ((getProtocolStats_correct sW4).2.2.2 (by decide)).1

/-- C5: createMatch succeeds exactly when the caller is an active
registered MATCHMAKER, both peers are non-null and distinct; a successful
call returns the current counter value as the id (ids are therefore
0, 1, 2, … in arrival order, never reused or skipped, since only a
successful createMatch moves the counter, by exactly one), records the
fixed reward and the caller as matchmaker with verified = false and
completedAt = 0, increments the total-matches counter by exactly one, and
touches no other match slot. -/
theorem createMatch_correct (s : State) (c p1 p2 t : Nat) :
    ((∃ r, createMatch c p1 p2 t s = .ok r) ↔
      ((s.users c).isActive = true ∧ (s.users c).role = .MATCHMAKER ∧
       p1 ≠ 0 ∧ p2 ≠ 0 ∧ p1 ≠ p2)) ∧
    (∀ id s', createMatch c p1 p2 t s = .ok (id, s') →
      id = s.matchCounter ∧
      s'.matchCounter = s.matchCounter + 1 ∧
      s'.totalMatches = s.totalMatches + 1 ∧
      s'.matchesMap id = newMatchRec id c p1 p2 t ∧
      (s'.matchesMap id).rewardAmount = REWARD_AMOUNT ∧
      (s'.matchesMap id).matchmaker = c ∧
      (s'.matchesMap id).isVerified = false ∧
      (s'.matchesMap id).completedAt = 0 ∧
      (∀ m2, m2 ≠ id → s'.matchesMap m2 = s.matchesMap m2)) ∧
    (∀ o : Op, (∀ c2 q1 q2 t2, o ≠ .create c2 q1 q2 t2) →
      (applyOp o s).matchCounter = s.matchCounter) := by
  refine ⟨?_, ?_, fun o ho => step_counter_frame o s ho⟩
  · simp only [createMatch]
    split_ifs with h1 h2 h3 h4 <;> simp_all [not_or] <;> tauto
  · intro id s' h
    rcases createMatch_shape c p1 p2 t s with ⟨e, he⟩ | ⟨_, _, _, _, _, hok⟩
    · rw [he] at h
      cases h
    · rw [hok] at h
      simp only [Except.ok.injEq, Prod.mk.injEq] at h
      obtain ⟨hid, hs'⟩ := h
      subst hid
      subst hs'
      refine ⟨rfl, rfl, rfl, ?_, ?_, ?_, ?_, ?_, ?_⟩ <;>
        simp [createSuccState, upd, newMatchRec]
      intro m2 hm2
      simp [createSuccState, upd, hm2]

theorem createMatch_correct_witness :
    (∃ r, createMatch 4 7 8 9 sW5 = .ok r) ∧
    createMatch 4 7 8 9 sW5 = .ok (0, sW5c) ∧
    sW5c.matchCounter = sW5.matchCounter + 1 ∧
    (sW5c.matchesMap 0).matchmaker = 4 ∧
    (applyOp (.register 9 .VERIFIER) sW5).matchCounter = sW5.matchCounter := by
  have hiff := (createMatch_correct sW5 4 7 8 9).1.mpr
    ⟨by decide, by decide, by decide, by decide, by decide⟩
  have h0 : createMatch 4 7 8 9 sW5 = .ok (0, sW5c) := rfl
  have h2 := (createMatch_correct sW5 4 7 8 9).2.1 0 sW5c h0
  exact ⟨hiff, h0, h2.2.1, h2.2.2.2.2.2.1,
    (createMatch_correct sW5 4 7 8 9).2.2 (.register 9 .VERIFIER)
      (fun c2 q1 q2 t2 h => Op.noConfusion h)⟩

/-- C6 counterexample: identity 5 already has an active record, yet a
second registerUser call by 5 with role NONE fails with InvalidRole — the
role check runs before the already-registered check — refuting the claim
that a second registration by the same identity always fails with
AlreadyRegistered. -/
theorem second_registration_with_none_fails_with_invalidRole :
    (sC6.users 5).isActive = true ∧
    registerUser 5 .NONE sC6 = .error .InvalidRole ∧
    Err.InvalidRole ≠ Err.AlreadyRegistered :=
  ⟨by decide, rfl, by decide⟩

/-- C6 (amended): registerUser succeeds exactly when the role is not NONE
and the caller has no active record; with role NONE it fails with
InvalidRole (even for an already-registered caller, since the role check
runs first), a second registration with any valid role fails with
AlreadyRegistered, and any failed call leaves the state exactly as it was;
a successful call stores the User record with zero rewards, zero
successful matches and active = true, and adds the caller to the verifier
set when the role is VERIFIER. -/
theorem registerUser_correct (s : State) (c : Addr) (r : Role) :
    ((∃ s', registerUser c r s = .ok s') ↔
      (r ≠ .NONE ∧ (s.users c).isActive = false)) ∧
    (r = .NONE → registerUser c r s = .error .InvalidRole) ∧
    (r ≠ .NONE → (s.users c).isActive = true →
      registerUser c r s = .error .AlreadyRegistered) ∧
    ((s.users c).isActive = true → applyOp (.register c r) s = s) ∧
    (∀ s', registerUser c r s = .ok s' →
      s'.users c = registeredUser c r ∧
      (registeredUser c r).userAddress = c ∧
      (registeredUser c r).role = r ∧
      (registeredUser c r).totalRewardsEarned = 0 ∧
      (registeredUser c r).successfulMatches = 0 ∧
      (registeredUser c r).isActive = true ∧
      (r = .VERIFIER → s'.verifiers c = true)) := by
  refine ⟨?_, ?_, ?_, ?_, ?_⟩
  · simp only [registerUser]
    split_ifs <;> simp_all
  · intro h
    subst h
    simp [registerUser]
  · intro h1 h2
    simp [registerUser, h1, h2]
  · intro h2
    rcases applyOp_register_shape c r s with hs | ⟨ha, _, _⟩
    · exact hs
    · rw [h2] at ha
      cases ha
  · intro s' h
    rcases registerUser_shape c r s with ⟨e, he⟩ | ⟨_, _, hok⟩
    · rw [he] at h
      cases h
    · rw [hok] at h
      injection h with h
      subst h
      refine ⟨by simp [upd], rfl, rfl, rfl, rfl, rfl, ?_⟩
      intro hr
      simp [hr, upd]

theorem registerUser_correct_witness :
    (∃ s', registerUser 6 .VERIFIER sC6 = .ok s') ∧
    registerUser 5 .ADMIN sC6 = .error .AlreadyRegistered ∧
    applyOp (.register 5 .ADMIN) sC6 = sC6 := by
  have hiff := (registerUser_correct sC6 6 .VERIFIER).1.mpr
    ⟨by decide, by decide⟩
  have h2 := (registerUser_correct sC6 5 .ADMIN).2.2.1 (by decide) (by decide)
  have h3 := (registerUser_correct sC6 5 .ADMIN).2.2.2.1 (by decide)
  exact ⟨hiff, h2, h3⟩

/-- C7: membership in the verifier set is monotone: any address in the set
before any operation (registerUser, assignRole, createMatch, verifyMatch,
fundRewards, withdrawTokens, or a direct token call) is still in it
afterwards; in particular `assignRole` moving a verifier to a non-VERIFIER
role never removes verifier-set membership. -/
theorem verifier_set_monotone (s : State) (a : Addr) (o : Op)
    (h : s.verifiers a = true) : (applyOp o s).verifiers a = true := by
  cases o <;>
    simp only [applyOp, stepOf, registerUser, assignRole, createMatch, verifyMatch,
      _distributeReward, fundRewards, withdrawTokens, tokenMint, tokenBurn,
      tokenTransferOp, tokenTransfer] <;>
    (try split_ifs) <;> simp_all [upd]

theorem verifier_set_monotone_witness :
    sW7.verifiers 6 = true ∧
    (applyOp (.assign 1 6 .MATCHMAKER) sW7).verifiers 6 = true ∧
    ((applyOp (.assign 1 6 .MATCHMAKER) sW7).users 6).role = .MATCHMAKER := by
  refine ⟨by decide, ?_, by decide⟩
  exact verifier_set_monotone sW7 6 (.assign 1 6 .MATCHMAKER) (by decide)

/-- C8: read operations are asymmetric on unknown identifiers, and neither
mutates state (both are plain functions of the state).  In a reachable
state an address is registered exactly when its record is active
(registerUser sets the flag and no operation ever clears it — second
conjunct), so "never registered" is formalised as isActive = false: for
such an address getUserInfo returns the zero-valued User record without
failing, while getMatchInfo on an unallocated id (id ≥ match counter)
fails with UnknownMatch. -/
theorem reads_on_unknown_identifiers (s : State) (hs : Reachable s)
    (a : Addr) (m : Nat) :
    ((s.users a).isActive = false →
      getUserInfo a s = defaultUser ∧ defaultUser.userAddress = 0 ∧
      defaultUser.role = .NONE ∧ defaultUser.totalRewardsEarned = 0 ∧
      defaultUser.successfulMatches = 0 ∧ defaultUser.isActive = false) ∧
    ((s.users a).isActive = true →
      ∀ o : Op, ((applyOp o s).users a).isActive = true) ∧
    (s.matchCounter ≤ m → getMatchInfo m s = .error .UnknownMatch) := by
  obtain ⟨d, tk, rg, sup, ops, rfl⟩ := hs
  have hinv := reach_ind UsersInv usersInv_step ops _ (usersInv_init d tk rg sup)
  refine ⟨fun h => ⟨hinv.1 a h, rfl, rfl, rfl, rfl, rfl⟩,
    fun h o => step_active_mono o _ a h,
    fun h => by simp [getMatchInfo, h]⟩

theorem reads_on_unknown_identifiers_witness :
    ((applyOps opsW8 (initState 1 2 3 0)).users 9).isActive = false ∧
    getUserInfo 9 (applyOps opsW8 (initState 1 2 3 0)) = defaultUser ∧
    getMatchInfo 5 (applyOps opsW8 (initState 1 2 3 0))
      = .error .UnknownMatch := by
  have h := reads_on_unknown_identifiers _ ⟨1, 2, 3, 0, opsW8, rfl⟩ 9 5
  exact ⟨by decide, (h.1 (by decide)).1, h.2.2 (by decide)⟩

/-- C9: in every reachable state the match id counter equals the
total-matches counter (both are incremented together, only by a successful
createMatch), and every match slot at or above the counter is still the
zero record, so `totalMatches` also counts the allocated match records. -/
theorem matchCounter_eq_totalMatches (s : State) (h : Reachable s) :
    s.matchCounter = s.totalMatches ∧
    ∀ m, s.matchCounter ≤ m → s.matchesMap m = defaultMatch := by
  obtain ⟨d, tk, rg, sup, ops, rfl⟩ := h
  exact reach_ind CountersInv countersInv_step ops _ (countersInv_init d tk rg sup)

theorem matchCounter_eq_totalMatches_witness :
    (applyOps opsW9 (initState 1 2 3 4)).matchCounter =
      (applyOps opsW9 (initState 1 2 3 4)).totalMatches ∧
    (applyOps opsW9 (initState 1 2 3 4)).matchesMap 2 = defaultMatch := by
  have h := matchCounter_eq_totalMatches _ ⟨1, 2, 3, 4, opsW9, rfl⟩
  exact ⟨h.1, h.2 2 (by decide)⟩

/-- C10: a caller whose stored role is ADMIN and who is not in the verifier
set can neither create matches (createMatch rejects every role other than
MATCHMAKER) nor verify them (verifyMatch is gated solely on verifier-set
membership, never on the stored role), and the failed calls leave the state
unchanged. -/
theorem admin_role_confers_no_rights (s : State) (c p1 p2 t m t2 : Nat)
    (hrole : (s.users c).role = .ADMIN) (hver : s.verifiers c = false) :
    createMatch c p1 p2 t s =
      .error (if (s.users c).isActive then .UnauthorizedRole
              else .NotRegistered) ∧
    verifyMatch c m t2 s = .error .UnauthorizedRole ∧
    applyOp (.create c p1 p2 t) s = s ∧
    applyOp (.verify c m t2) s = s := by
  have h1 : createMatch c p1 p2 t s =
      .error (if (s.users c).isActive then .UnauthorizedRole
              else .NotRegistered) := by
    simp only [createMatch]
    split_ifs <;> simp_all
  have h2 : verifyMatch c m t2 s = .error .UnauthorizedRole := by
    simp [verifyMatch, hver]
  refine ⟨h1, h2, ?_, ?_⟩
  · simp [applyOp, h1]
  · simp [applyOp, stepOf, h2]

theorem admin_role_confers_no_rights_witness :
    (sW10.users 6).role = .ADMIN ∧ sW10.verifiers 6 = false ∧
    verifyMatch 6 0 11 sW10 = .error .UnauthorizedRole ∧
    applyOp (.create 6 7 8 9) sW10 = sW10 := by
  have h := admin_role_confers_no_rights sW10 6 7 8 9 0 11 (by decide) (by decide)
  exact ⟨by decide, by decide, h.2.1, h.2.2.1⟩

end BlockLink
